import Mathlib

/-!
Verification of the rescue-password tool (tuchandra/rescue).

The repository ships two revisions of the UI script `js/script.js`; the first
revision (pyodide-integrated) is embedded in namespace `V1`, the second
revision (with stubbed codec plumbing) in namespace `V2`.  The Python codec
`python/rescue.py` is fetched at runtime and is not part of the inspected
sources; it is modelled from the specification in namespace `Codec`.

JavaScript strings are modelled as lists of characters; JavaScript exceptions
as an explicit error type threaded through `Except`; the DOM password widgets
as lists of groups of slots, mirroring the two nested `for` loops the script
uses everywhere.
-/

set_option maxRecDepth 4000

deriving instance DecidableEq for Except

namespace Rescue

/-- JavaScript strings, modelled as lists of characters. -/
abbrev JsStr := List Char

/-- JavaScript exceptions: a `TypeError` raised by an operation on
`undefined`, or a `throw new Error(msg)`. -/
inductive JsError where
  | typeError
  | err (msg : String)
deriving DecidableEq

/-- Rescue-symbol widget of the first script revision: a `button` element
carrying a class list (`symbol`, `symbol-<background>`, `cursor-default`)
and its glyph label as text content. -/
structure SymbolElement where
  classList : List JsStr
  textContent : JsStr
deriving DecidableEq

/-- Characters of the class name `symbol`. -/
def symbolClass : JsStr := ['s', 'y', 'm', 'b', 'o', 'l']

/-- Characters of the class name `cursor-default`. -/
def cursorDefaultClass : JsStr :=
  ['c', 'u', 'r', 's', 'o', 'r', '-', 'd', 'e', 'f', 'a', 'u', 'l', 't']

/-- Model of JavaScript `String.prototype.split` with a one-character
separator. -/
def jsSplitOn (sep : Char) : JsStr → List JsStr
  | [] => [[]]
  | c :: cs =>
    match jsSplitOn sep cs with
    | [] => [[c]]
    | g :: gs => if c = sep then [] :: g :: gs else (c :: g) :: gs

/-- Model of JavaScript `String.prototype.toUpperCase` on ASCII data. -/
def jsToUpper (s : JsStr) : JsStr := s.map Char.toUpper

namespace V1

/-- Embeds `getBackgroundName` of the first script revision: lower-cases its
argument, maps the five background code letters to background names and
throws on everything else. -/
def getBackgroundName (ch : Char) : Except JsError JsStr :=
  let c := ch.toLower
  if c = 'f' then .ok ['f', 'i', 'r', 'e']
  else if c = 'h' then .ok ['h', 'e', 'a', 'r', 't']
  else if c = 'w' then .ok ['w', 'a', 't', 'e', 'r']
  else if c = 'e' then .ok ['e', 'm', 'e', 'r', 'a', 'l', 'd']
  else if c = 's' then .ok ['s', 't', 'a', 'r']
  else .error (JsError.err "invalid background symbol, must be f / h / w / e / s")

/-- Embeds `textToSymbol` of the first revision: reads `text[0]` as the label
and `text[1]` as the background code and builds the symbol element.  When
`text[1]` is `undefined` (input shorter than two characters) the
`toLowerCase` call inside `getBackgroundName` raises a `TypeError`. -/
def textToSymbol (text : JsStr) : Except JsError SymbolElement :=
  match text with
  | c1 :: c2 :: _ =>
    match getBackgroundName c2 with
    | .error e => .error e
    | .ok bg => .ok ⟨[symbolClass, symbolClass ++ '-' :: bg, cursorDefaultClass], [c1]⟩
  | _ => .error .typeError

/-- Embeds `symbolsToText` of the first revision: for each symbol element,
upper-cases its text content and appends the upper-cased first character of
the background part of its second class (`symbol-<background>`). -/
def symbolsToText (els : List SymbolElement) : Except JsError (List JsStr) :=
  els.mapM fun el =>
    match el.classList.get? 1 with
    | none => .error .typeError
    | some cls =>
      match (jsSplitOn '-' cls).get? 1 with
      | none => .error .typeError
      | some bgName =>
        match bgName.get? 0 with
        | none => .error .typeError
        | some c => .ok (jsToUpper el.textContent ++ [c.toUpper])

/-- Content of one slot of the rescue-password input widget: either the
placeholder (class `rescue-placeholder`) or an entered symbol element. -/
inductive InContent where
  | placeholder
  | entered (el : SymbolElement)
deriving DecidableEq

/-- Slot of the rescue-password input, together with the invalid-highlight
class `bg-red-300` that `submitPassword` adds to empty slots. -/
structure InSpace where
  content : InContent
  invalid : Bool
deriving DecidableEq

/-- Decides whether a slot holds an entered symbol. -/
def InSpace.isEntered (sp : InSpace) : Bool :=
  match sp.content with
  | .placeholder => false
  | .entered _ => true

/-- Cell of the revival-password output: whatever it held initially, or a
symbol element put there by `fillRevivalPassword`. -/
inductive OutCell where
  | blank
  | filled (el : SymbolElement)
deriving DecidableEq

/-- Page state touched by the first-revision script: the two symbol grids
(lists of groups of slots, matching the two nested DOM loops) and the three
visibility toggles the script flips. -/
structure PageState where
  inputGroups : List (List InSpace)
  outputGroups : List (List OutCell)
  tooShortHidden : Bool
  revivalTextHidden : Bool
  outputHidden : Bool
deriving DecidableEq

/-- Result of a `submitPassword` call: the page state it leaves behind, the
exception it lets escape (if any), and whether it invoked the codec entry
point `pyGenerateRevivalPassword`. -/
structure SubmitResult where
  state : PageState
  thrown : Option JsError
  codecCalled : Bool
deriving DecidableEq

/-- Embeds `getEnteredSymbols` of the first revision: walks the input grid in
document order, throws `Error("Password is incomplete!")` at the first slot
still carrying the `rescue-placeholder` class, and otherwise collects the
entered symbol elements. -/
def getEnteredSymbols (groups : List (List InSpace)) : Except JsError (List SymbolElement) :=
  groups.flatten.mapM fun sp =>
    match sp.content with
    | .placeholder => .error (JsError.err "Password is incomplete!")
    | .entered el => .ok el

/-- Number of slots of the input grid holding an entered symbol. -/
def enteredCount (groups : List (List InSpace)) : Nat :=
  (groups.flatten.filter InSpace.isEntered).length

/-- Embeds the highlighting loop in `submitPassword`: adds `bg-red-300` to
every slot still carrying `rescue-placeholder`. -/
def highlightPlaceholders (groups : List (List InSpace)) : List (List InSpace) :=
  groups.map (List.map fun sp =>
    match sp.content with
    | .placeholder => ⟨sp.content, true⟩
    | .entered _ => sp)

/-- Embeds the style-reset loop in `addToPassword`: removes `bg-red-300` from
every slot (a no-op where the class is absent). -/
def clearInvalid (groups : List (List InSpace)) : List (List InSpace) :=
  groups.map (List.map fun sp => ⟨sp.content, false⟩)

/-- Embeds the inner loop of `replaceFirstPlaceholder` on a single group:
replaces the first placeholder slot with the given element and reports
whether a replacement happened. -/
def replaceFirstPlaceholderInGroup (el : SymbolElement) :
    List InSpace → Option (List InSpace)
  | [] => none
  | sp :: sps =>
    match sp.content with
    | .placeholder => some (⟨.entered el, false⟩ :: sps)
    | .entered _ =>
      match replaceFirstPlaceholderInGroup el sps with
      | some sps2 => some (sp :: sps2)
      | none => none

/-- Embeds `replaceFirstPlaceholder` of the first revision: scans the groups
in order and replaces the first placeholder slot found, returning as soon as
one replacement is made; does nothing when no placeholder remains. -/
def replaceFirstPlaceholder (el : SymbolElement) :
    List (List InSpace) → List (List InSpace)
  | [] => []
  | g :: gs =>
    match replaceFirstPlaceholderInGroup el g with
    | some g2 => g2 :: gs
    | none => g :: replaceFirstPlaceholder el gs

/-- Embeds `addToPassword` of the first revision: puts the cloned symbol
element into the first placeholder slot, removes the invalid style from every
slot and hides the too-short message. -/
def addToPassword (el : SymbolElement) (st : PageState) : PageState :=
  { st with
    inputGroups := clearInvalid (replaceFirstPlaceholder el st.inputGroups),
    tooShortHidden := true }

/-- First-placeholder replacement on the flattened slot list; states what
`replaceFirstPlaceholder` does across the group structure. -/
def replaceFirstFlat (el : SymbolElement) : List InSpace → List InSpace
  | [] => []
  | sp :: sps =>
    match sp.content with
    | .placeholder => ⟨.entered el, false⟩ :: sps
    | .entered _ => sp :: replaceFirstFlat el sps

/-- Model of a JavaScript call `textToSymbol(x)` where `x` may be the
`undefined` produced by an out-of-range index: `undefined[0]` inside
`textToSymbol` raises a `TypeError`. -/
def textToSymbolJS : Option JsStr → Except JsError SymbolElement
  | none => .error .typeError
  | some t => textToSymbol t

/-- Embeds the inner loop of `fillRevivalPassword` over one group of output
cells, starting at index `i` of the symbols array.  When the symbols array
itself is `undefined` (the codec call failed), reading `symbols[i]` raises a
`TypeError` before any cell is replaced. -/
def fillCells (symbols : Option (List JsStr)) : Nat → List OutCell → List OutCell × Option JsError
  | _, [] => ([], none)
  | i, c :: cs =>
    match symbols with
    | none => (c :: cs, some .typeError)
    | some toks =>
      match textToSymbolJS (toks.get? i) with
      | .error e => (c :: cs, some e)
      | .ok el =>
        let r := fillCells symbols (i + 1) cs
        (OutCell.filled el :: r.1, r.2)

/-- Embeds the outer loop of `fillRevivalPassword` over the output groups,
threading the running index; an exception aborts the walk and leaves the
remaining groups untouched. -/
def fillGroups (symbols : Option (List JsStr)) : Nat → List (List OutCell) →
    List (List OutCell) × Option JsError
  | _, [] => ([], none)
  | i, g :: gs =>
    let r := fillCells symbols i g
    match r.2 with
    | some e => (r.1 :: gs, some e)
    | none =>
      let r2 := fillGroups symbols (i + g.length) gs
      (r.1 :: r2.1, r2.2)

/-- Embeds `fillRevivalPassword` of the first revision: replaces the output
cells in document order with `textToSymbol(symbols[i])`, with no bounds check
on `i`. -/
def fillRevivalPassword (symbols : Option (List JsStr)) (groups : List (List OutCell)) :
    List (List OutCell) × Option JsError :=
  fillGroups symbols 0 groups

/-- Embeds `submitPassword` of the first revision.  The codec entry point
`pyGenerateRevivalPassword` is passed in as a function, and the result
records whether it was invoked.  An incomplete password is caught, shows the
too-short message and highlights the empty slots; a codec failure is caught
and logged, after which `fillRevivalPassword` is still called on the
`undefined` left in `revivalPassword`. -/
def submitPassword (codec : List JsStr → Except JsError (List JsStr)) (st : PageState) :
    SubmitResult :=
  match getEnteredSymbols st.inputGroups with
  | .error _ =>
    ⟨{ st with
        tooShortHidden := false,
        inputGroups := highlightPlaceholders st.inputGroups }, none, false⟩
  | .ok passwordSymbols =>
    match symbolsToText passwordSymbols with
    | .error e => ⟨st, some e, false⟩
    | .ok text =>
      let revivalPassword : Option (List JsStr) :=
        match codec text with
        | .ok r => some r
        | .error _ => none
      let r := fillRevivalPassword revivalPassword st.outputGroups
      match r.2 with
      | some e => ⟨{ st with outputGroups := r.1 }, some e, true⟩
      | none =>
        ⟨{ st with
            outputGroups := r.1,
            revivalTextHidden := false,
            outputHidden := false }, none, true⟩

end V1

namespace V2

/-- Embeds `getBackgroundName` of the second script revision, which compares
its argument against the five lower-case code letters without lower-casing
it first. -/
def getBackgroundName (c : Char) : Except JsError JsStr :=
  if c = 'f' then .ok ['f', 'i', 'r', 'e']
  else if c = 'h' then .ok ['h', 'e', 'a', 'r', 't']
  else if c = 'w' then .ok ['w', 'a', 't', 'e', 'r']
  else if c = 'e' then .ok ['e', 'm', 'e', 'r', 'a', 'l', 'd']
  else if c = 's' then .ok ['s', 't', 'a', 'r']
  else .error (JsError.err "invalid background symbol, must be f / h / w / e / s")

/-- Rescue-symbol widget of the second revision: `background` and `label`
attributes instead of a style class. -/
structure SymbolElement2 where
  background : Option JsStr
  label : Option JsStr
  textContent : JsStr
deriving DecidableEq

/-- Fixed token list that the second revision's `symbolsToText` returns. -/
def defaultRevivalTokens : List JsStr :=
  [['1', 'f'], ['2', 'f'], ['3', 'f'], ['4', 'f'], ['5', 'f'],
   ['1', 'e'], ['2', 'e'], ['3', 'e'], ['4', 'e'], ['5', 'e'],
   ['1', 's'], ['2', 's'], ['3', 's'], ['4', 's'], ['5', 's'],
   ['1', 'w'], ['2', 'w'], ['3', 'w'], ['4', 'w'], ['5', 'w'],
   ['1', 'h'], ['2', 'h'], ['3', 'h'], ['4', 'h'], ['5', 'h'],
   ['X', 's'], ['X', 'h'], ['X', 'e'], ['X', 'w'], ['X', 'f']]

/-- Embeds `symbolsToText` of the second revision: it returns the fixed token
list `defaultRevivalTokens` on its first statement, so the per-symbol
conversion loop written below that `return` is unreachable and the argument
is ignored. -/
def symbolsToText (_symbols : List SymbolElement2) : List JsStr :=
  defaultRevivalTokens

/-- Embeds `pyGenerateRevivalPassword` of the second revision, a stub that
returns its argument unchanged. -/
def pyGenerateRevivalPassword (text : List JsStr) : List JsStr := text

end V2

namespace Codec

/-!
Modelled from the spec: the Python codec `python/rescue.py` is fetched and
executed at runtime and is not among the inspected sources; everything in
this namespace follows the specification's data model (sections 3, 4 and 6).
Where the specification leaves a design freedom (the exact field bit-widths,
the checksum accumulator, the dungeon table), a concrete choice satisfying
the stated invariants is fixed here.
-/

/-- Modelled from the spec: decode/encode failures of the codec
(sections 4 and 7). -/
inductive CodecError where
  | malformedInput
  | invalidSymbol
  | outOfRange
  | valueTooLarge
  | checksumMismatch
  | unsupportedVersion
  | unknownDungeon
  | floorOutOfRange
deriving DecidableEq

/-- Modelled from the spec: the glyph label alphabet (digits plus a small
set of letters). -/
def glyphChars : List Char :=
  ['1', '2', '3', '4', '5', '6', '7', '8', '9', 'P', 'M', 'D', 'X']

/-- Lower-case background code letters, in the canonical background order
fire, heart, water, emerald, star. -/
def bgChars : List Char := ['f', 'h', 'w', 'e', 's']

/-- Upper-case background code letters, used when rendering tokens. -/
def bgCharsUpper : List Char := ['F', 'H', 'W', 'E', 'S']

/-- Modelled from the spec: a symbol is a (glyph, background) pair; here a
pair of a glyph index (below 13) and a background index (below 5). -/
abbrev Symbol := Nat × Nat

/-- Valid symbols have a glyph index below 13 and a background index
below 5. -/
def ValidSymbol (s : Symbol) : Prop := s.1 < 13 ∧ s.2 < 5

/-- Modelled from the spec: `symbol_to_ordinal`, the position of a symbol in
the canonical enumeration of all 65 (glyph, background) pairs. -/
def symbolToOrdinal (s : Symbol) : Nat := s.1 * 5 + s.2

/-- Modelled from the spec: `ordinal_to_symbol`, failing with `OutOfRange`
for ordinals at or above the alphabet size 65. -/
def ordinalToSymbol (n : Nat) : Except CodecError Symbol :=
  if n < 65 then .ok (n / 5, n % 5) else .error .outOfRange

/-- Value of a little-endian digit list in base `R`. -/
def ofDigitsLE (R : Nat) : List Nat → Nat
  | [] => 0
  | d :: ds => d + R * ofDigitsLE R ds

/-- The `k` little-endian digits of `v` in base `R`. -/
def toDigitsLE (R : Nat) : Nat → Nat → List Nat
  | 0, _ => []
  | k + 1, v => v % R :: toDigitsLE R k (v / R)

/-- Modelled from the spec: `symbols_to_value`, folding the 30 ordinals into
one integer, most-significant symbol first. -/
def symbolsToValue (syms : List Symbol) : Nat :=
  ofDigitsLE 65 (syms.map symbolToOrdinal).reverse

/-- Modelled from the spec: `value_to_symbols`, the 30-digit base-65
expansion (most-significant first), failing with `ValueTooLarge` when the
value does not fit in 30 digits. -/
def valueToSymbols (v : Nat) : Except CodecError (List Symbol) :=
  if v < 65 ^ 30 then (toDigitsLE 65 30 v).reverse.mapM ordinalToSymbol
  else .error .valueTooLarge

/-- Modelled from the spec: the read-only dungeon table, pairing each dungeon
name with its maximum floor. -/
def dungeons : List (String × Nat) :=
  [("Tiny Woods", 3), ("Thunderwave Cave", 5), ("Mt Steel", 9),
   ("Sinister Woods", 13), ("Silent Chasm", 9), ("Mt Thunder", 10),
   ("Great Canyon", 12), ("Lapis Cave", 14)]

/-- Maximum floor of a dungeon id (0 outside the table). -/
def maxFloor (d : Nat) : Nat := ((dungeons.get? d).map Prod.snd).getD 0

/-- Modelled from the spec: the checksum accumulator over the non-checksum
fields, a polynomial accumulator taken modulo the 8-bit checksum range
(the exact accumulator is a stated design freedom). -/
def checksumFn (d fl : Nat) (team : List Nat) : Nat :=
  (d + 3 * fl + team.foldl (fun acc c => acc * 7 + c) 0) % 256

/-- Modelled from the spec: the decoded rescue record, with the team name
held as its 12 packed symbol-alphabet characters (6 bits each). -/
structure RescueRecord where
  dungeonId : Nat
  floor : Nat
  teamName : List Nat
  checksum : Nat
deriving DecidableEq

/-- Modelled from the spec: validity of a rescue record — dungeon id inside
the table, floor within the dungeon's range, a 12-character team name over
the 64-character alphabet, and a checksum matching the recomputation. -/
def ValidRecord (r : RescueRecord) : Prop :=
  r.dungeonId < dungeons.length ∧ 1 ≤ r.floor ∧ r.floor ≤ maxFloor r.dungeonId ∧
    r.teamName.length = 12 ∧ (∀ c ∈ r.teamName, c < 64) ∧
    r.checksum = checksumFn r.dungeonId r.floor r.teamName

instance (r : RescueRecord) : Decidable (ValidRecord r) := by
  unfold ValidRecord; infer_instance

/-- Modelled from the spec: the constant header/version tag field. -/
def versionTag : Nat := 82

/-- Modelled from the spec: the field layout inside the packed value, most
significant first — tag (8 bits), checksum (8), dungeon id (7), floor (7),
team name (72 = 12 × 6), zero padding (78) filling out the 180-bit width. -/
def packFields (cks d fl team : Nat) : Nat :=
  ((((versionTag * 2 ^ 8 + cks) * 2 ^ 7 + d) * 2 ^ 7 + fl) * 2 ^ 72 + team) * 2 ^ 78

/-- Packs a record's fields, with the team name in its base-64 packing. -/
def packRecord (r : RescueRecord) : Nat :=
  packFields r.checksum r.dungeonId r.floor (ofDigitsLE 64 r.teamName)

/-- Team-name field of a packed value. -/
def sliceTeam (v : Nat) : Nat := v / 2 ^ 78 % 2 ^ 72

/-- Floor field of a packed value. -/
def sliceFloor (v : Nat) : Nat := v / 2 ^ 78 / 2 ^ 72 % 2 ^ 7

/-- Dungeon-id field of a packed value. -/
def sliceDungeon (v : Nat) : Nat := v / 2 ^ 78 / 2 ^ 72 / 2 ^ 7 % 2 ^ 7

/-- Checksum field of a packed value. -/
def sliceChecksum (v : Nat) : Nat := v / 2 ^ 78 / 2 ^ 72 / 2 ^ 7 / 2 ^ 7 % 2 ^ 8

/-- Header/version tag field of a packed value. -/
def sliceTag (v : Nat) : Nat := v / 2 ^ 78 / 2 ^ 72 / 2 ^ 7 / 2 ^ 7 / 2 ^ 8

/-- Modelled from the spec: `render`, packing a record's fields plus the
version tag into the base representation and converting to 30 symbols. -/
def render (r : RescueRecord) : Except CodecError (List Symbol) :=
  valueToSymbols (packRecord r)

/-- Modelled from the spec: `decode` — defensively rejects any length other
than 30 with `MalformedInput`, converts the symbols to the packed value,
slices out the fields, verifies the checksum first and then the version tag,
the dungeon id and the floor range. -/
def decode (syms : List Symbol) : Except CodecError RescueRecord :=
  if syms.length ≠ 30 then .error .malformedInput
  else
    let v := symbolsToValue syms
    let team := toDigitsLE 64 12 (sliceTeam v)
    if sliceChecksum v ≠ checksumFn (sliceDungeon v) (sliceFloor v) team then
      .error .checksumMismatch
    else if sliceTag v ≠ versionTag then .error .unsupportedVersion
    else if dungeons.length ≤ sliceDungeon v then .error .unknownDungeon
    else if sliceFloor v = 0 ∨ maxFloor (sliceDungeon v) < sliceFloor v then
      .error .floorOutOfRange
    else .ok ⟨sliceDungeon v, sliceFloor v, team, sliceChecksum v⟩

/-- Modelled from the spec: `derive_revival`, a pure deterministic transform
of a validated record — here a fixed substitution on the team-name
characters with the checksum recomputed so the result satisfies the same
checksum discipline. -/
def deriveRevival (r : RescueRecord) : RescueRecord :=
  let team := r.teamName.map fun c => (c + 13) % 64
  ⟨r.dungeonId, r.floor, team, checksumFn r.dungeonId r.floor team⟩

/-- Modelled from the spec: parsing one two-character textual token into a
symbol, case-insensitively in both characters (section 6). -/
def parseToken (t : JsStr) : Except CodecError Symbol :=
  match t with
  | [g, b] =>
    match glyphChars.findIdx? (fun c => c = g.toUpper), bgChars.findIdx? (fun c => c = b.toLower) with
    | some gi, some bi => .ok (gi, bi)
    | _, _ => .error .invalidSymbol
  | _ => .error .invalidSymbol

/-- Renders a symbol as its two-character textual token. -/
def symbolToToken (s : Symbol) : JsStr :=
  [glyphChars.getD s.1 'X', bgCharsUpper.getD s.2 'F']

/-- Modelled from the spec: what the Python snippet inside
`pyGenerateRevivalPassword` computes — `RescueCode(...)` parses the tokens,
`.decode()` validates the rescue record, derives the revival record and
renders it back as 30 two-character tokens. -/
def pythonRescueDecode (tokens : List JsStr) : Except CodecError (List JsStr) :=
  match tokens.mapM parseToken with
  | .error e => .error e
  | .ok syms =>
    match decode syms with
    | .error e => .error e
    | .ok r =>
      match render (deriveRevival r) with
      | .error e => .error e
      | .ok syms2 => .ok (syms2.map symbolToToken)

/-- Concrete record used to instantiate the round-trip theorem. -/
def witnessRecord : RescueRecord :=
  ⟨1, 1, List.replicate 12 0, checksumFn 1 1 (List.replicate 12 0)⟩

end Codec

namespace V1

/-- Module-level mutable state the first-revision script touches inside
`pyGenerateRevivalPassword`: the `window.passwordSymbols` handle it assigns,
and the undeclared `revival` variable the result is stored in. -/
structure JsGlobals where
  passwordSymbols : Option (List JsStr)
  revival : Option (Except Codec.CodecError (List JsStr))
deriving DecidableEq

/-- Embeds `pyGenerateRevivalPassword` of the first revision: it first writes
its argument to the global `window.passwordSymbols`, then runs the Python
snippet — which imports that very global, decodes it and returns the revival
tokens — and stores the result in the global `revival` before returning
it. -/
def pyGenerateRevivalPassword (st : JsGlobals) (tokens : List JsStr) :
    JsGlobals × Except Codec.CodecError (List JsStr) :=
  let st1 : JsGlobals := { st with passwordSymbols := some tokens }
  let result :=
    match st1.passwordSymbols with
    | some ts => Codec.pythonRescueDecode ts
    | none => .error .malformedInput
  ({ st1 with revival := some result }, result)

/-- Concrete symbol element (glyph 9 on a heart background) used to
instantiate theorems. -/
def sampleSymbol : SymbolElement :=
  ⟨[symbolClass, symbolClass ++ '-' :: ['h', 'e', 'a', 'r', 't'], cursorDefaultClass], ['9']⟩

/-- Concrete symbol element (glyph 1 on a fire background) used to
instantiate theorems. -/
def sampleFireSymbol : SymbolElement :=
  ⟨[symbolClass, symbolClass ++ '-' :: ['f', 'i', 'r', 'e'], cursorDefaultClass], ['1']⟩

/-- Page state whose input grid holds 29 entered symbols and one
placeholder. -/
def sampleShortState : PageState :=
  ⟨[List.replicate 29 ⟨.entered sampleSymbol, false⟩ ++ [⟨.placeholder, false⟩]],
    [List.replicate 30 OutCell.blank], true, true, true⟩

/-- Page state whose input grid holds a complete entered password of 30
symbols. -/
def sampleFullState : PageState :=
  ⟨[List.replicate 30 ⟨.entered sampleSymbol, false⟩],
    [List.replicate 30 OutCell.blank], true, true, true⟩

/-- Output grid with three cells in two groups, used to instantiate the
out-of-range behaviour of `fillRevivalPassword`. -/
def sampleOutGroups : List (List OutCell) :=
  [[OutCell.blank], [OutCell.blank, OutCell.blank]]

end V1

namespace Codec

/-- Length of the fixed-width digit expansion. -/
theorem toDigitsLE_length (R k v : Nat) : (toDigitsLE R k v).length = k := by
  induction k generalizing v with
  | zero => rfl
  | succ k ih => simp [toDigitsLE, ih]

/-- Every digit of the fixed-width expansion is below the radix. -/
theorem toDigitsLE_lt (R k v : Nat) (hR : 0 < R) :
    ∀ d ∈ toDigitsLE R k v, d < R := by
  induction k generalizing v with
  | zero => intro d hd; simp [toDigitsLE] at hd
  | succ k ih =>
    intro d hd
    simp only [toDigitsLE, List.mem_cons] at hd
    rcases hd with h | h
    · subst h; exact Nat.mod_lt _ hR
    · exact ih _ d h

/-- Digit expansion is a right inverse of digit evaluation on values that
fit in the width. -/
theorem ofDigitsLE_toDigitsLE (R k v : Nat) (hR : 0 < R) (hv : v < R ^ k) :
    ofDigitsLE R (toDigitsLE R k v) = v := by
  induction k generalizing v with
  | zero =>
    simp only [pow_zero, Nat.lt_one_iff] at hv
    simp [toDigitsLE, ofDigitsLE, hv]
  | succ k ih =>
    simp only [toDigitsLE, ofDigitsLE]
    rw [ih (v / R) (by rw [Nat.div_lt_iff_lt_mul hR]; rw [pow_succ] at hv; exact hv)]
    exact Nat.mod_add_div v R

/-- Digit evaluation is a right inverse of digit expansion on digit lists
over the radix. -/
theorem toDigitsLE_ofDigitsLE (R : Nat) (ds : List Nat) (h : ∀ d ∈ ds, d < R) :
    toDigitsLE R ds.length (ofDigitsLE R ds) = ds := by
  induction ds with
  | nil => rfl
  | cons d ds ih =>
    have hdR : d < R := h d (by simp)
    have hR : 0 < R := by omega
    simp only [List.length_cons, toDigitsLE, ofDigitsLE]
    have h1 : (d + R * ofDigitsLE R ds) % R = d := by
      rw [Nat.add_mul_mod_self_left]; exact Nat.mod_eq_of_lt hdR
    have h2 : (d + R * ofDigitsLE R ds) / R = ofDigitsLE R ds := by
      rw [Nat.add_mul_div_left _ _ hR, Nat.div_eq_of_lt hdR, Nat.zero_add]
    rw [h1, h2, ih (fun x hx => h x (by simp [hx]))]

/-- Digit evaluation stays below the radix power of the list length. -/
theorem ofDigitsLE_lt (R : Nat) (ds : List Nat) (h : ∀ d ∈ ds, d < R) :
    ofDigitsLE R ds < R ^ ds.length := by
  induction ds with
  | nil => simp [ofDigitsLE]
  | cons d ds ih =>
    have h1 : d < R := h d (by simp)
    have h2 : ofDigitsLE R ds < R ^ ds.length := ih (fun x hx => h x (by simp [hx]))
    have step1 : d + R * ofDigitsLE R ds < R * (ofDigitsLE R ds + 1) := by
      have hx := Nat.add_lt_add_right h1 (R * ofDigitsLE R ds)
      calc d + R * ofDigitsLE R ds < R + R * ofDigitsLE R ds := hx
        _ = R * (ofDigitsLE R ds + 1) := by ring
    have step2 : R * (ofDigitsLE R ds + 1) ≤ R * R ^ ds.length :=
      Nat.mul_le_mul_left R (Nat.succ_le_of_lt h2)
    have step3 : R * R ^ ds.length = R ^ (ds.length + 1) := by ring
    simp only [ofDigitsLE, List.length_cons]
    exact lt_of_lt_of_le step1 (step2.trans_eq step3)

/-- On in-range ordinals, `ordinalToSymbol` succeeds elementwise. -/
theorem mapM_ordinalToSymbol (ds : List Nat) (h : ∀ d ∈ ds, d < 65) :
    ds.mapM ordinalToSymbol = .ok (ds.map fun d => (d / 5, d % 5)) := by
  induction ds with
  | nil => rfl
  | cons d ds ih =>
    have hd : ordinalToSymbol d = .ok (d / 5, d % 5) := by
      unfold ordinalToSymbol; rw [if_pos (h d (by simp))]
    rw [List.mapM_cons, hd, ih (fun x hx => h x (by simp [hx]))]
    rfl

/-- Every field slice recovers the packed field, given the field bounds of
the layout. -/
theorem slices_packFields (c d f t : Nat) (hc : c < 2 ^ 8) (hd : d < 2 ^ 7)
    (hf : f < 2 ^ 7) (ht : t < 2 ^ 72) :
    sliceTeam (packFields c d f t) = t ∧ sliceFloor (packFields c d f t) = f ∧
      sliceDungeon (packFields c d f t) = d ∧ sliceChecksum (packFields c d f t) = c ∧
      sliceTag (packFields c d f t) = versionTag := by
  have e7 : (2 : Nat) ^ 7 = 128 := by norm_num
  have e8 : (2 : Nat) ^ 8 = 256 := by norm_num
  have e72 : (2 : Nat) ^ 72 = 4722366482869645213696 := by norm_num
  have e78 : (2 : Nat) ^ 78 = 302231454903657293676544 := by norm_num
  unfold sliceTeam sliceFloor sliceDungeon sliceChecksum sliceTag packFields versionTag
  rw [e7, e8, e72, e78] at *
  refine ⟨?_, ?_, ?_, ?_, ?_⟩ <;> omega

end Codec


namespace Codec

/-- C5: for every valid record `r`, decoding the 30-symbol rendering of `r`
returns `r` itself: `decode (render r) = r`. -/
theorem C5_rescue_roundtrip (r : RescueRecord) (h : ValidRecord r) :
    (render r).bind decode = Except.ok r := by
  obtain ⟨hd, hf1, hf2, hlen, hteam, hcks⟩ := h
  have e7 : (2 : Nat) ^ 7 = 128 := by norm_num
  have e8 : (2 : Nat) ^ 8 = 256 := by norm_num
  have e72 : (2 : Nat) ^ 72 = 4722366482869645213696 := by norm_num
  have e102 : (2 : Nat) ^ 102 = 5070602400912917605986812821504 := by norm_num
  have ht : ofDigitsLE 64 r.teamName < 2 ^ 72 := by
    have h1 := ofDigitsLE_lt 64 r.teamName hteam
    rw [hlen] at h1
    have h2 : (64 : Nat) ^ 12 = 2 ^ 72 := by norm_num
    rw [h2] at h1
    exact h1
  have hcksLt : r.checksum < 2 ^ 8 := by
    rw [hcks]; unfold checksumFn; rw [e8]; exact Nat.mod_lt _ (by norm_num)
  have hdLt : r.dungeonId < 2 ^ 7 := by
    have hlen8 : dungeons.length = 8 := rfl
    rw [hlen8] at hd; rw [e7]; omega
  have hmax : ∀ d, d < 8 → maxFloor d ≤ 14 := by decide
  have hflLt : r.floor < 2 ^ 7 := by
    have hlen8 : dungeons.length = 8 := rfl
    rw [hlen8] at hd
    have := hmax r.dungeonId hd
    rw [e7]; omega
  -- the packed value fits in the 30-digit base-65 width
  have hB : (((versionTag * 2 ^ 8 + r.checksum) * 2 ^ 7 + r.dungeonId) * 2 ^ 7 + r.floor)
      * 2 ^ 72 + ofDigitsLE 64 r.teamName < 2 ^ 102 := by
    rw [e7, e8, e72, e102] at *
    unfold versionTag
    omega
  have hv30 : packRecord r < 65 ^ 30 := by
    have hsplit : (2 : Nat) ^ 102 * 2 ^ 78 = 2 ^ 180 := by norm_num
    have h65 : (2 : Nat) ^ 180 ≤ 65 ^ 30 := by norm_num
    have hlt : packRecord r < 2 ^ 102 * 2 ^ 78 := by
      unfold packRecord packFields
      exact mul_lt_mul_of_pos_right hB (by norm_num)
    calc packRecord r < 2 ^ 102 * 2 ^ 78 := hlt
      _ = 2 ^ 180 := hsplit
      _ ≤ 65 ^ 30 := h65
  -- rendering succeeds, producing the 30-digit expansion as symbols
  have hrevlt : ∀ d ∈ (toDigitsLE 65 30 (packRecord r)).reverse, d < 65 := by
    intro d hdm
    exact toDigitsLE_lt 65 30 (packRecord r) (by norm_num) d (List.mem_reverse.mp hdm)
  have hrender : render r
      = .ok ((toDigitsLE 65 30 (packRecord r)).reverse.map fun d => (d / 5, d % 5)) := by
    unfold render valueToSymbols
    rw [if_pos hv30, mapM_ordinalToSymbol _ hrevlt]
  set syms := (toDigitsLE 65 30 (packRecord r)).reverse.map (fun d => (d / 5, d % 5)) with hsyms
  have hlen30 : syms.length = 30 := by
    rw [hsyms]
    simp [toDigitsLE_length]
  have hmapback : syms.map symbolToOrdinal = (toDigitsLE 65 30 (packRecord r)).reverse := by
    rw [hsyms, List.map_map]
    conv_rhs => rw [← List.map_id ((toDigitsLE 65 30 (packRecord r)).reverse)]
    apply List.map_congr_left
    intro d hdm
    have hd65 := hrevlt d hdm
    simp only [Function.comp_apply, id_eq]
    unfold symbolToOrdinal
    omega
  have hval : symbolsToValue syms = packRecord r := by
    unfold symbolsToValue
    rw [hmapback, List.reverse_reverse]
    exact ofDigitsLE_toDigitsLE 65 30 (packRecord r) (by norm_num) hv30
  have hslices := slices_packFields r.checksum r.dungeonId r.floor
    (ofDigitsLE 64 r.teamName) hcksLt hdLt hflLt ht
  obtain ⟨hsT, hsF, hsD, hsC, hsTag⟩ := hslices
  have hpack : packRecord r = packFields r.checksum r.dungeonId r.floor
      (ofDigitsLE 64 r.teamName) := rfl
  rw [← hpack] at hsT hsF hsD hsC hsTag
  have hteamdig : toDigitsLE 64 12 (ofDigitsLE 64 r.teamName) = r.teamName := by
    rw [← hlen]
    exact toDigitsLE_ofDigitsLE 64 r.teamName hteam
  rw [hrender]
  show decode syms = Except.ok r
  unfold decode
  rw [if_neg (by omega : ¬ syms.length ≠ 30)]
  simp only [hval, hteamdig, hsT, hsF, hsD, hsC, hsTag]
  rw [if_neg (by rw [hcks]; simp)]
  have hno : ¬ (r.floor = 0 ∨ maxFloor r.dungeonId < r.floor) := by
    push_neg
    constructor
    · omega
    · omega
  have hnd : ¬ dungeons.length ≤ r.dungeonId := by omega
  rw [if_neg hno, if_neg hnd]
  rfl

/-- Witness for C5: the round-trip theorem applied to a concrete valid
record. -/
theorem C5_rescue_roundtrip_witness :
    ValidRecord witnessRecord ∧
      (render witnessRecord).bind decode = Except.ok witnessRecord :=
  ⟨by decide, C5_rescue_roundtrip witnessRecord (by decide)⟩

end Codec

/-- C2 (code bug in the second revision): on a complete entered password of
thirty identical symbols (glyph 9 on a heart background), the second
revision's `symbolsToText` returns its fixed default token list — thirty
tokens independent of the input — instead of one `9H` token per entered
symbol, contradicting its own doc comment and the spec; the conversion loop
it documents sits unreachable below the `return`. -/
theorem C2_symbolsToText_stub_evaluation :
    V2.symbolsToText (List.replicate 30 ⟨some ['h', 'e', 'a', 'r', 't'], some ['9'], ['9']⟩)
        = V2.defaultRevivalTokens
    ∧ V2.defaultRevivalTokens ≠ List.replicate 30 ['9', 'H'] :=
  ⟨rfl, by decide⟩

/-- C4 (counterexample): the second revision's `getBackgroundName` rejects
the upper-case background code `F`, so the claim that both revisions accept
upper- and lower-case codes fails. -/
theorem C4_counterexample :
    V2.getBackgroundName 'F'
      = Except.error (JsError.err "invalid background symbol, must be f / h / w / e / s") :=
  rfl

/-- C4 (amended): the first revision's `getBackgroundName` lower-cases its
argument and then agrees with the second revision's table, hence is
case-insensitive; the second revision's accepts exactly the five lower-case
codes `f h w e s` (mapping them to fire, heart, water, emerald, star) and
fails on every other character, upper-case codes included. -/
theorem C4_getBackgroundName_amended (c : Char) :
    V1.getBackgroundName c = V2.getBackgroundName c.toLower
    ∧ (∀ name, V2.getBackgroundName c = Except.ok name ↔
        (c = 'f' ∧ name = ['f', 'i', 'r', 'e']) ∨
        (c = 'h' ∧ name = ['h', 'e', 'a', 'r', 't']) ∨
        (c = 'w' ∧ name = ['w', 'a', 't', 'e', 'r']) ∨
        (c = 'e' ∧ name = ['e', 'm', 'e', 'r', 'a', 'l', 'd']) ∨
        (c = 's' ∧ name = ['s', 't', 'a', 'r'])) := by
  constructor
  · rfl
  · intro name
    unfold V2.getBackgroundName
    split_ifs with h1 h2 h3 h4 h5 <;> simp_all <;> exact eq_comm

/-- Witness for the amended C4: at the concrete inputs `F` and `f`, the
first revision accepts the upper-case code exactly as the second accepts the
lower-case one. -/
theorem C4_getBackgroundName_amended_witness :
    V1.getBackgroundName 'F' = V2.getBackgroundName 'f'
    ∧ V2.getBackgroundName 'f' = Except.ok ['f', 'i', 'r', 'e'] :=
  ⟨(C4_getBackgroundName_amended 'F').1,
    ((C4_getBackgroundName_amended 'f').2 ['f', 'i', 'r', 'e']).mpr
      (Or.inl ⟨rfl, rfl⟩)⟩

/-- C6: revival derivation at the UI boundary is deterministic — for a list
of 30 valid two-character tokens, the result of the first revision's
`pyGenerateRevivalPassword` does not depend on the pre-call global state (so
two calls on the same list return identical output), and the second
revision's stub returns its argument unchanged. -/
theorem C6_pyGenerateRevivalPassword_deterministic (st1 st2 : V1.JsGlobals)
    (tokens : List JsStr) (h30 : tokens.length = 30)
    (hval : ∀ t ∈ tokens, (Codec.parseToken t).isOk = true) :
    (V1.pyGenerateRevivalPassword st1 tokens).2 = (V1.pyGenerateRevivalPassword st2 tokens).2
    ∧ V2.pyGenerateRevivalPassword tokens = tokens :=
  ⟨rfl, rfl⟩

/-- Witness for C6: two different pre-call global states, same 30 valid
tokens, identical results. -/
theorem C6_pyGenerateRevivalPassword_deterministic_witness :
    (List.replicate 30 (['9', 'h'] : JsStr)).length = 30
    ∧ (∀ t ∈ List.replicate 30 (['9', 'h'] : JsStr), (Codec.parseToken t).isOk = true)
    ∧ (V1.pyGenerateRevivalPassword ⟨none, none⟩ (List.replicate 30 ['9', 'h'])).2
        = (V1.pyGenerateRevivalPassword
            ⟨some [], some (Except.error Codec.CodecError.malformedInput)⟩
            (List.replicate 30 ['9', 'h'])).2 :=
  ⟨by decide, by decide,
    (C6_pyGenerateRevivalPassword_deterministic ⟨none, none⟩
      ⟨some [], some (Except.error Codec.CodecError.malformedInput)⟩
      (List.replicate 30 ['9', 'h']) (by decide) (by decide)).1⟩

/-- C7 (counterexample): `pyGenerateRevivalPassword` of the first revision
does write a module-level variable: after a call, the global
`window.passwordSymbols` holds the argument, whereas before the call it did
not. -/
theorem C7_counterexample :
    (V1.pyGenerateRevivalPassword ⟨none, none⟩ (List.replicate 30 ['1', 'f'])).1.passwordSymbols
      = some (List.replicate 30 ['1', 'f'])
    ∧ (⟨none, none⟩ : V1.JsGlobals).passwordSymbols ≠ some (List.replicate 30 ['1', 'f']) :=
  ⟨rfl, by decide⟩

/-- C7 (amended): `pyGenerateRevivalPassword` of the first revision writes
the module-level `passwordSymbols` handle (setting it to its token-list
argument) and the `revival` global (the result); apart from these writes the
call is value-like — the globals after the call and the returned value are
determined by the argument alone, so no state is retained from one call to
the next that could influence a result. -/
theorem C7_pyGenerateRevivalPassword_globals (st : V1.JsGlobals) (tokens : List JsStr) :
    (V1.pyGenerateRevivalPassword st tokens).1
        = ⟨some tokens, some (Codec.pythonRescueDecode tokens)⟩
    ∧ (V1.pyGenerateRevivalPassword st tokens).2 = Codec.pythonRescueDecode tokens :=
  ⟨rfl, rfl⟩

/-- C8: token-level round-trip in the first revision — for a two-character
token of a glyph label and a lower-case background code, rendering the token
as a symbol element with `textToSymbol` and reading it back with
`symbolsToText` yields the token with both characters upper-cased. -/
theorem C8_token_roundtrip (c1 c2 : Char) (h1 : c1 ∈ Codec.glyphChars)
    (h2 : c2 ∈ (['f', 'h', 'w', 'e', 's'] : List Char)) :
    (V1.textToSymbol [c1, c2]).bind (fun el => V1.symbolsToText [el])
      = Except.ok [[c1.toUpper, c2.toUpper]] := by
  fin_cases h2 <;> rfl

/-- Witness for C8: the token `4e` renders and reads back as `4E`. -/
theorem C8_token_roundtrip_witness :
    '4' ∈ Codec.glyphChars ∧ 'e' ∈ (['f', 'h', 'w', 'e', 's'] : List Char)
    ∧ (V1.textToSymbol ['4', 'e']).bind (fun el => V1.symbolsToText [el])
        = Except.ok [['4', 'E']] :=
  ⟨by decide, by decide, C8_token_roundtrip '4' 'e' (by decide) (by decide)⟩


namespace V1

theorem mapM_slots_error (l : List InSpace)
    (h : ∃ sp ∈ l, sp.content = InContent.placeholder) :
    (l.mapM fun sp =>
      match sp.content with
      | InContent.placeholder => Except.error (JsError.err "Password is incomplete!")
      | InContent.entered el => Except.ok el)
      = Except.error (JsError.err "Password is incomplete!") := by
  induction l with
  | nil => simp at h
  | cons sp sps ih =>
    rw [List.mapM_cons]
    rcases h with ⟨x, hx, hpx⟩
    rcases List.mem_cons.mp hx with rfl | hmem
    · rw [hpx]
      rfl
    · cases hsp : sp.content with
      | placeholder => rfl
      | entered el =>
        have ihe := ih ⟨x, hmem, hpx⟩
        rw [ihe]
        rfl

theorem getEnteredSymbols_error (groups : List (List InSpace))
    (h : ∃ sp ∈ groups.flatten, sp.content = InContent.placeholder) :
    getEnteredSymbols groups = Except.error (JsError.err "Password is incomplete!") :=
  mapM_slots_error groups.flatten h

theorem exists_placeholder_of_short (groups : List (List InSpace))
    (h30 : groups.flatten.length = 30) (hshort : enteredCount groups < 30) :
    ∃ sp ∈ groups.flatten, sp.content = InContent.placeholder := by
  by_contra hall
  push_neg at hall
  have hfull : ∀ sp ∈ groups.flatten, InSpace.isEntered sp = true := by
    intro sp hsp
    cases hc : sp.content with
    | placeholder => exact absurd hc (hall sp hsp)
    | entered el => simp [InSpace.isEntered, hc]
  unfold enteredCount at hshort
  rw [List.filter_length_eq_length.mpr hfull, h30] at hshort
  omega

/-- C1: on an input grid of 30 slots with fewer than 30 symbols entered,
`getEnteredSymbols` throws, `submitPassword` reveals the too-short message
and returns without calling the codec entry point, so no decoding is ever
attempted on an incomplete password. -/
theorem C1_submitPassword_incomplete (codec : List JsStr → Except JsError (List JsStr))
    (st : PageState) (h30 : st.inputGroups.flatten.length = 30)
    (hshort : enteredCount st.inputGroups < 30) :
    getEnteredSymbols st.inputGroups = Except.error (JsError.err "Password is incomplete!")
    ∧ (submitPassword codec st).codecCalled = false
    ∧ (submitPassword codec st).state.tooShortHidden = false
    ∧ (submitPassword codec st).thrown = none
    ∧ (submitPassword codec st).state.outputGroups = st.outputGroups := by
  have herr := getEnteredSymbols_error st.inputGroups
    (exists_placeholder_of_short st.inputGroups h30 hshort)
  unfold submitPassword
  rw [herr]
  exact ⟨rfl, rfl, rfl, rfl, rfl⟩

theorem fillGroups_undefined (groups : List (List OutCell)) (i : Nat)
    (h : ∃ g ∈ groups, g ≠ []) :
    fillGroups none i groups = (groups, some JsError.typeError) := by
  induction groups generalizing i with
  | nil => simp at h
  | cons g gs ih =>
    rcases h with ⟨x, hx, hne⟩
    cases g with
    | nil =>
      have hmem : x ∈ gs := by
        rcases List.mem_cons.mp hx with rfl | hm
        · exact absurd rfl hne
        · exact hm
      simp only [fillGroups, fillCells, List.length_nil, Nat.add_zero]
      rw [ih i ⟨x, hmem, hne⟩]
    | cons c cs =>
      unfold fillGroups fillCells
      rfl

/-- C3: when the codec call fails on a submitted complete password, the
failure is terminal for the call — `submitPassword` leaves the whole page
state unchanged (output slots untouched, output area still hidden as it
was) and lets the `TypeError` raised by `fillRevivalPassword(undefined)`
escape. -/
theorem C3_submitPassword_codec_failure (codec : List JsStr → Except JsError (List JsStr))
    (st : PageState) (syms : List SymbolElement) (text : List JsStr) (e : JsError)
    (hok : getEnteredSymbols st.inputGroups = Except.ok syms)
    (htext : symbolsToText syms = Except.ok text)
    (hfail : codec text = Except.error e)
    (hcell : ∃ g ∈ st.outputGroups, g ≠ []) :
    submitPassword codec st = ⟨st, some JsError.typeError, true⟩ := by
  have hfill : fillRevivalPassword none st.outputGroups
      = (st.outputGroups, some JsError.typeError) :=
    fillGroups_undefined st.outputGroups 0 hcell
  simp only [submitPassword, hok, htext, hfail, hfill]

theorem replaceFirstFlat_append_of_some (el : SymbolElement) (g g2 : List InSpace)
    (h : replaceFirstPlaceholderInGroup el g = some g2) :
    ∀ rest, replaceFirstFlat el (g ++ rest) = g2 ++ rest := by
  induction g generalizing g2 with
  | nil => simp [replaceFirstPlaceholderInGroup] at h
  | cons sp sps ih =>
    intro rest
    cases hsp : sp.content with
    | placeholder =>
      unfold replaceFirstPlaceholderInGroup at h
      rw [hsp] at h
      cases h
      simp only [List.cons_append]
      unfold replaceFirstFlat
      rw [hsp]
    | entered el2 =>
      unfold replaceFirstPlaceholderInGroup at h
      rw [hsp] at h
      cases h2 : replaceFirstPlaceholderInGroup el sps with
      | none => rw [h2] at h; cases h
      | some sps2 =>
        rw [h2] at h
        cases h
        simp only [List.cons_append]
        unfold replaceFirstFlat
        rw [hsp, ih sps2 h2 rest]

theorem replaceFirstFlat_append_of_none (el : SymbolElement) (g : List InSpace)
    (h : replaceFirstPlaceholderInGroup el g = none) :
    ∀ rest, replaceFirstFlat el (g ++ rest) = g ++ replaceFirstFlat el rest := by
  induction g with
  | nil => intro rest; rfl
  | cons sp sps ih =>
    intro rest
    cases hsp : sp.content with
    | placeholder =>
      unfold replaceFirstPlaceholderInGroup at h
      rw [hsp] at h
      cases h
    | entered el2 =>
      unfold replaceFirstPlaceholderInGroup at h
      rw [hsp] at h
      cases h2 : replaceFirstPlaceholderInGroup el sps with
      | some sps2 => rw [h2] at h; cases h
      | none =>
        have hstep : replaceFirstFlat el (sp :: (sps ++ rest))
            = sp :: replaceFirstFlat el (sps ++ rest) := by
          simp only [replaceFirstFlat, hsp]
        simp only [List.cons_append]
        rw [hstep, ih h2 rest]

theorem flatten_replaceFirstPlaceholder (el : SymbolElement) (gs : List (List InSpace)) :
    (replaceFirstPlaceholder el gs).flatten = replaceFirstFlat el gs.flatten := by
  induction gs with
  | nil => rfl
  | cons g gs ih =>
    unfold replaceFirstPlaceholder
    cases h : replaceFirstPlaceholderInGroup el g with
    | some g2 =>
      simp only [List.flatten_cons]
      rw [replaceFirstFlat_append_of_some el g g2 h gs.flatten]
    | none =>
      simp only [List.flatten_cons]
      rw [replaceFirstFlat_append_of_none el g h gs.flatten, ih]

theorem replaceFirstFlat_get_entered (el : SymbolElement) (l : List InSpace) :
    ∀ (i : Nat) (sp : InSpace), l.get? i = some sp → sp.isEntered = true →
      (replaceFirstFlat el l).get? i = some sp := by
  induction l with
  | nil => intro i sp h _; simp at h
  | cons x xs ih =>
    intro i sp h hent
    cases hx : x.content with
    | placeholder =>
      unfold replaceFirstFlat
      rw [hx]
      cases i with
      | zero =>
        simp only [List.get?] at h
        cases h
        simp [InSpace.isEntered, hx] at hent
      | succ j => exact h
    | entered el2 =>
      unfold replaceFirstFlat
      rw [hx]
      cases i with
      | zero => exact h
      | succ j => exact ih j sp h hent

theorem replaceFirstFlat_of_all_entered (el : SymbolElement) (l : List InSpace)
    (h : ∀ sp ∈ l, sp.isEntered = true) : replaceFirstFlat el l = l := by
  induction l with
  | nil => rfl
  | cons x xs ih =>
    have hx := h x (by simp)
    unfold replaceFirstFlat
    cases hc : x.content with
    | placeholder => simp [InSpace.isEntered, hc] at hx
    | entered el2 => rw [ih (fun sp hsp => h sp (by simp [hsp]))]

theorem replaceFirstFlat_length (el : SymbolElement) (l : List InSpace) :
    (replaceFirstFlat el l).length = l.length := by
  induction l with
  | nil => rfl
  | cons x xs ih =>
    unfold replaceFirstFlat
    cases hc : x.content with
    | placeholder => rfl
    | entered el2 => simp [ih]

theorem inGroup_none_of_all_entered (el : SymbolElement) (g : List InSpace)
    (h : ∀ sp ∈ g, sp.isEntered = true) :
    replaceFirstPlaceholderInGroup el g = none := by
  induction g with
  | nil => rfl
  | cons sp sps ih =>
    have hx := h sp (by simp)
    unfold replaceFirstPlaceholderInGroup
    cases hc : sp.content with
    | placeholder => simp [InSpace.isEntered, hc] at hx
    | entered el2 => rw [ih (fun x hxm => h x (by simp [hxm]))]

theorem replaceFirstPlaceholder_of_all_entered (el : SymbolElement) (gs : List (List InSpace))
    (h : ∀ sp ∈ gs.flatten, sp.isEntered = true) :
    replaceFirstPlaceholder el gs = gs := by
  induction gs with
  | nil => rfl
  | cons g gs ih =>
    unfold replaceFirstPlaceholder
    rw [inGroup_none_of_all_entered el g
      (fun sp hsp => h sp (by simp [List.mem_flatten]; exact Or.inl hsp))]
    rw [ih (fun sp hsp => h sp (by
      simp only [List.flatten_cons, List.mem_append]
      exact Or.inr hsp))]

theorem clearInvalid_of_clean (gs : List (List InSpace))
    (h : ∀ sp ∈ gs.flatten, sp.invalid = false) : clearInvalid gs = gs := by
  unfold clearInvalid
  conv_rhs => rw [← List.map_id gs]
  apply List.map_congr_left
  intro g hg
  simp only [id_eq]
  conv_rhs => rw [← List.map_id g]
  apply List.map_congr_left
  intro sp hsp
  have hinv := h sp (List.mem_flatten.mpr ⟨g, hg, hsp⟩)
  simp only [id_eq]
  cases sp
  simp_all

theorem flatten_clearInvalid (gs : List (List InSpace)) :
    (clearInvalid gs).flatten = gs.flatten.map (fun sp => ⟨sp.content, false⟩) := by
  unfold clearInvalid
  rw [List.map_flatten]

/-- C9: `addToPassword` only fills the first placeholder slot — on a clean
grid (no entered slot carries the invalid highlight) every entered slot is
left unchanged at its position, a grid with no placeholder left is left
entirely unchanged, and the number of slots and entered symbols never
exceeds the 30 slots of the grid. -/
theorem C9_addToPassword_frame (el : SymbolElement) (st : PageState)
    (hclean : ∀ sp ∈ st.inputGroups.flatten, sp.isEntered = true → sp.invalid = false)
    (h30 : st.inputGroups.flatten.length = 30) :
    (∀ (i : Nat) (sp : InSpace), st.inputGroups.flatten.get? i = some sp →
        sp.isEntered = true →
        (addToPassword el st).inputGroups.flatten.get? i = some sp)
    ∧ ((∀ sp ∈ st.inputGroups.flatten, sp.isEntered = true) →
        (addToPassword el st).inputGroups = st.inputGroups)
    ∧ (addToPassword el st).inputGroups.flatten.length = 30
    ∧ enteredCount (addToPassword el st).inputGroups ≤ 30 := by
  have hflat : (addToPassword el st).inputGroups.flatten
      = (replaceFirstFlat el st.inputGroups.flatten).map (fun sp => ⟨sp.content, false⟩) := by
    show (clearInvalid (replaceFirstPlaceholder el st.inputGroups)).flatten = _
    rw [flatten_clearInvalid, flatten_replaceFirstPlaceholder]
  refine ⟨?_, ?_, ?_, ?_⟩
  · intro i sp hget hent
    have h1 : (replaceFirstFlat el st.inputGroups.flatten).get? i = some sp :=
      replaceFirstFlat_get_entered el st.inputGroups.flatten i sp hget hent
    rw [hflat, List.get?_map, h1]
    have hsp : sp ∈ st.inputGroups.flatten := List.get?_mem hget
    have hinv := hclean sp hsp hent
    cases sp
    simp_all
  · intro hall
    show clearInvalid (replaceFirstPlaceholder el st.inputGroups) = st.inputGroups
    rw [replaceFirstPlaceholder_of_all_entered el st.inputGroups hall]
    exact clearInvalid_of_clean st.inputGroups
      (fun sp hsp => hclean sp hsp (hall sp hsp))
  · rw [hflat, List.length_map, replaceFirstFlat_length, h30]
  · unfold enteredCount
    calc ((addToPassword el st).inputGroups.flatten.filter InSpace.isEntered).length
        ≤ (addToPassword el st).inputGroups.flatten.length :=
          List.length_filter_le _ _
      _ = 30 := by rw [hflat, List.length_map, replaceFirstFlat_length, h30]

theorem mapM_textToSymbol_length (toks : List JsStr) (els : List SymbolElement)
    (h : toks.mapM textToSymbol = Except.ok els) : els.length = toks.length := by
  induction toks generalizing els with
  | nil => cases h; rfl
  | cons t ts ih =>
    rw [List.mapM_cons] at h
    cases hft : textToSymbol t with
    | error e => rw [hft] at h; cases h
    | ok el =>
      rw [hft] at h
      cases hmm : ts.mapM textToSymbol with
      | error e => rw [hmm] at h; cases h
      | ok els2 =>
        rw [hmm] at h
        cases h
        simp [ih els2 hmm]

theorem fillCells_complete (toks : List JsStr) :
    ∀ (cs : List OutCell) (i : Nat) (els : List SymbolElement),
      (toks.drop i).mapM textToSymbol = Except.ok els →
      cs.length ≤ els.length →
      fillCells (some toks) i cs = ((els.map OutCell.filled).take cs.length, none) := by
  intro cs
  induction cs with
  | nil => intro i els _ _; rfl
  | cons c cs ih =>
    intro i els hmap hlen
    cases hd : toks.drop i with
    | nil =>
      rw [hd] at hmap
      cases hmap
      simp at hlen
    | cons t rest =>
      rw [hd, List.mapM_cons] at hmap
      cases hft : textToSymbol t with
      | error e => rw [hft] at hmap; cases hmap
      | ok el =>
        rw [hft] at hmap
        cases hmm : rest.mapM textToSymbol with
        | error e => rw [hmm] at hmap; cases hmap
        | ok els2 =>
          rw [hmm] at hmap
          cases hmap
          have hget : toks.get? i = some t := by
            have hq := List.get?_drop toks i 0
            rw [hd] at hq
            simpa using hq.symm
          have hrest : toks.drop (i + 1) = rest := by
            have hq := List.tail_drop toks i
            rw [hd] at hq
            simpa using hq.symm
          have hrec := ih (i + 1) els2 (by rw [hrest]; exact hmm) (by simp at hlen; omega)
          simp only [fillCells, textToSymbolJS, hget, hft, hrec]
          simp [List.take_succ_cons]

theorem fillCells_overrun (toks : List JsStr) :
    ∀ (cs : List OutCell) (i : Nat) (els : List SymbolElement),
      (toks.drop i).mapM textToSymbol = Except.ok els →
      els.length < cs.length →
      fillCells (some toks) i cs
        = (els.map OutCell.filled ++ cs.drop els.length, some JsError.typeError) := by
  intro cs
  induction cs with
  | nil => intro i els _ hlen; simp at hlen
  | cons c cs ih =>
    intro i els hmap hlen
    cases hd : toks.drop i with
    | nil =>
      rw [hd] at hmap
      cases hmap
      have hget : toks.get? i = none := by
        have hq := List.get?_drop toks i 0
        rw [hd] at hq
        simpa using hq.symm
      simp only [fillCells, textToSymbolJS, hget]
      simp
    | cons t rest =>
      rw [hd, List.mapM_cons] at hmap
      cases hft : textToSymbol t with
      | error e => rw [hft] at hmap; cases hmap
      | ok el =>
        rw [hft] at hmap
        cases hmm : rest.mapM textToSymbol with
        | error e => rw [hmm] at hmap; cases hmap
        | ok els2 =>
          rw [hmm] at hmap
          cases hmap
          have hget : toks.get? i = some t := by
            have hq := List.get?_drop toks i 0
            rw [hd] at hq
            simpa using hq.symm
          have hrest : toks.drop (i + 1) = rest := by
            have hq := List.tail_drop toks i
            rw [hd] at hq
            simpa using hq.symm
          have hrec := ih (i + 1) els2 (by rw [hrest]; exact hmm) (by simp at hlen; omega)
          simp only [fillCells, textToSymbolJS, hget, hft, hrec]
          simp

theorem fillCells_append_err (toks : List JsStr) :
    ∀ (g : List OutCell) (i : Nat) (g2 : List OutCell) (e : JsError)
      (rest : List OutCell),
      fillCells (some toks) i g = (g2, some e) →
      fillCells (some toks) i (g ++ rest) = (g2 ++ rest, some e) := by
  intro g
  induction g with
  | nil =>
    intro i g2 e rest h
    simp [fillCells] at h
  | cons c g ih =>
    intro i g2 e rest h
    simp only [fillCells] at h ⊢
    cases hx : textToSymbolJS (toks.get? i) with
    | error e2 =>
      rw [hx] at h
      rw [Prod.mk.injEq] at h
      obtain ⟨hg2, he⟩ := h
      cases he
      subst hg2
      simp [hx, List.cons_append]
    | ok el =>
      rw [hx] at h
      cases hr : fillCells (some toks) (i + 1) g with
      | mk g3 r2 =>
        rw [hr] at h
        simp only [Prod.mk.injEq] at h
        obtain ⟨hg2, hr2⟩ := h
        subst hg2
        subst hr2
        simp only [hx, List.append_eq]
        rw [ih (i + 1) g3 e rest hr]
        simp [List.cons_append]

theorem fillCells_append_ok (toks : List JsStr) :
    ∀ (g : List OutCell) (i : Nat) (g2 : List OutCell) (rest : List OutCell),
      fillCells (some toks) i g = (g2, none) →
      fillCells (some toks) i (g ++ rest)
        = (g2 ++ (fillCells (some toks) (i + g.length) rest).1,
           (fillCells (some toks) (i + g.length) rest).2) := by
  intro g
  induction g with
  | nil =>
    intro i g2 rest h
    simp only [fillCells, Prod.mk.injEq] at h
    obtain ⟨hg2, _⟩ := h
    subst hg2
    simp [fillCells]
  | cons c g ih =>
    intro i g2 rest h
    simp only [fillCells] at h ⊢
    cases hx : textToSymbolJS (toks.get? i) with
    | error e2 =>
      rw [hx] at h
      rw [Prod.mk.injEq] at h
      obtain ⟨_, he⟩ := h
      cases he
    | ok el =>
      rw [hx] at h
      cases hr : fillCells (some toks) (i + 1) g with
      | mk g3 r2 =>
        rw [hr] at h
        simp only [Prod.mk.injEq] at h
        obtain ⟨hg2, hr2⟩ := h
        subst hg2
        subst hr2
        simp only [hx, List.append_eq]
        rw [ih (i + 1) g3 rest hr]
        have harith : i + 1 + g.length = i + (g.length + 1) := by omega
        simp [harith, List.cons_append, List.length_cons]

theorem fillGroups_flat (toks : List JsStr) :
    ∀ (gs : List (List OutCell)) (i : Nat),
      (fillGroups (some toks) i gs).1.flatten = (fillCells (some toks) i gs.flatten).1
      ∧ (fillGroups (some toks) i gs).2 = (fillCells (some toks) i gs.flatten).2 := by
  intro gs
  induction gs with
  | nil =>
    intro i
    constructor
    · rfl
    · rfl
  | cons g gs ih =>
    intro i
    simp only [fillGroups, List.flatten_cons]
    cases hr : fillCells (some toks) i g with
    | mk g2 r2 =>
      cases r2 with
      | some e =>
        rw [fillCells_append_err toks g i g2 e gs.flatten hr]
        simp only [hr, List.flatten_cons]
        constructor
        · trivial
        · trivial
      | none =>
        rw [fillCells_append_ok toks g i g2 gs.flatten hr]
        simp only [hr, List.flatten_cons]
        constructor
        · rw [(ih (i + g.length)).1]
        · exact (ih (i + g.length)).2

/-- C10: `fillRevivalPassword` has no bounds check — with fewer (valid)
tokens than output cells, `textToSymbol` is applied to the `undefined`
produced by the out-of-range index, the call throws a `TypeError`, and only
the first `toks.length` cells have been overwritten; with at least as many
valid tokens as cells the call never fails and every cell is replaced. -/
theorem C10_fillRevivalPassword_bounds (groups : List (List OutCell)) (toks : List JsStr)
    (els : List SymbolElement) (hval : toks.mapM textToSymbol = Except.ok els) :
    (toks.length < groups.flatten.length →
        (fillRevivalPassword (some toks) groups).2 = some JsError.typeError
      ∧ (fillRevivalPassword (some toks) groups).1.flatten
          = els.map OutCell.filled ++ groups.flatten.drop toks.length)
    ∧ (groups.flatten.length ≤ toks.length →
        (fillRevivalPassword (some toks) groups).2 = none
      ∧ (fillRevivalPassword (some toks) groups).1.flatten
          = (els.map OutCell.filled).take groups.flatten.length) := by
  have hlen : els.length = toks.length := mapM_textToSymbol_length toks els hval
  have hflat := fillGroups_flat toks groups 0
  have hdrop0 : toks.drop 0 = toks := List.drop_zero toks
  constructor
  · intro hlt
    have hover := fillCells_overrun toks groups.flatten 0 els
      (by rw [hdrop0]; exact hval) (by omega)
    constructor
    · show (fillGroups (some toks) 0 groups).2 = some JsError.typeError
      rw [hflat.2, hover]
    · show (fillGroups (some toks) 0 groups).1.flatten = _
      rw [hflat.1, hover, hlen]
  · intro hge
    have hcomp := fillCells_complete toks groups.flatten 0 els
      (by rw [hdrop0]; exact hval) (by omega)
    constructor
    · show (fillGroups (some toks) 0 groups).2 = none
      rw [hflat.2, hcomp]
    · show (fillGroups (some toks) 0 groups).1.flatten = _
      rw [hflat.1, hcomp]

/-- Witness for C1: on a page with 29 entered symbols and one placeholder,
submission shows the too-short message and never calls the codec. -/
theorem C1_submitPassword_incomplete_witness :
    sampleShortState.inputGroups.flatten.length = 30
    ∧ enteredCount sampleShortState.inputGroups < 30
    ∧ (submitPassword (fun t => Except.ok t) sampleShortState).codecCalled = false
    ∧ (submitPassword (fun t => Except.ok t) sampleShortState).state.tooShortHidden = false :=
  ⟨by decide, by decide,
    (C1_submitPassword_incomplete (fun t => Except.ok t) sampleShortState
      (by decide) (by decide)).2.1,
    (C1_submitPassword_incomplete (fun t => Except.ok t) sampleShortState
      (by decide) (by decide)).2.2.1⟩

/-- Witness for C3: on a complete entered password whose codec call fails,
`submitPassword` leaves the page state unchanged and rethrows the
`TypeError` from the `undefined` revival password. -/
theorem C3_submitPassword_codec_failure_witness :
    getEnteredSymbols sampleFullState.inputGroups
        = Except.ok (List.replicate 30 sampleSymbol)
    ∧ symbolsToText (List.replicate 30 sampleSymbol)
        = Except.ok (List.replicate 30 ['9', 'H'])
    ∧ submitPassword (fun _ => Except.error (JsError.err "invalid")) sampleFullState
        = ⟨sampleFullState, some JsError.typeError, true⟩ :=
  ⟨by decide, by decide,
    C3_submitPassword_codec_failure (fun _ => Except.error (JsError.err "invalid"))
      sampleFullState (List.replicate 30 sampleSymbol) (List.replicate 30 ['9', 'H'])
      (JsError.err "invalid") (by decide) (by decide) rfl (by decide)⟩

/-- Witness for C9: adding a symbol to the 29-entered grid keeps the first
entered slot, keeps 30 slots, and keeps the entered count at most 30. -/
theorem C9_addToPassword_frame_witness :
    (∀ sp ∈ sampleShortState.inputGroups.flatten, sp.isEntered = true → sp.invalid = false)
    ∧ sampleShortState.inputGroups.flatten.length = 30
    ∧ (addToPassword sampleFireSymbol sampleShortState).inputGroups.flatten.get? 0
        = some ⟨.entered sampleSymbol, false⟩
    ∧ (addToPassword sampleFireSymbol sampleShortState).inputGroups.flatten.length = 30
    ∧ enteredCount (addToPassword sampleFireSymbol sampleShortState).inputGroups ≤ 30 :=
  ⟨by decide, by decide,
    (C9_addToPassword_frame sampleFireSymbol sampleShortState (by decide) (by decide)).1
      0 ⟨.entered sampleSymbol, false⟩ (by decide) (by decide),
    (C9_addToPassword_frame sampleFireSymbol sampleShortState (by decide) (by decide)).2.2.1,
    (C9_addToPassword_frame sampleFireSymbol sampleShortState (by decide) (by decide)).2.2.2⟩

/-- Witness for C10: one valid token against three output cells — the call
throws the out-of-range `TypeError` with only the first cell overwritten. -/
theorem C10_fillRevivalPassword_bounds_witness :
    ([['1', 'f']] : List JsStr).mapM textToSymbol = Except.ok [sampleFireSymbol]
    ∧ ([['1', 'f']] : List JsStr).length < sampleOutGroups.flatten.length
    ∧ (fillRevivalPassword (some [['1', 'f']]) sampleOutGroups).2 = some JsError.typeError
    ∧ (fillRevivalPassword (some [['1', 'f']]) sampleOutGroups).1.flatten
        = [sampleFireSymbol].map OutCell.filled
            ++ sampleOutGroups.flatten.drop ([['1', 'f']] : List JsStr).length :=
  ⟨by decide, by decide,
    ((C10_fillRevivalPassword_bounds sampleOutGroups [['1', 'f']] [sampleFireSymbol]
      (by decide)).1 (by decide)).1,
    ((C10_fillRevivalPassword_bounds sampleOutGroups [['1', 'f']] [sampleFireSymbol]
      (by decide)).1 (by decide)).2⟩

end V1

end Rescue
